import Mathlib

/-!
Verification of the ON-and-ORDER code-breaking game engine.

The definitions below are shallow embeddings of the TypeScript source:
  * `validateSequence`, `computeOnAndOrder`, `generateRandomSecret`,
    `getCpuPerfectGuess` from `utils/gameLogic.ts`
  * `submitSecret`, `submitGuess`, `triggerAiTurn`, `handleTimeout`
    from `screens/GameScreen.tsx`
Strings are modelled as `List Char`; the random sources
(`window.crypto.getRandomValues` and `Math.random`) are modelled as
explicit oracle parameters (`rand : List Nat`, `pick : Nat`), so a
"run" of the program is the function applied to one concrete oracle.
Wall-clock timestamps carried by guess records are omitted: no game
logic reads them.
-/

namespace OnOrder

/-- Feedback pair returned by the scorer (`{ on, order }` in the source; the
field name `on` is a Lean keyword, hence the guillemets). -/
structure Feedback where
  «on» : Nat
  order : Nat
deriving Repr, DecidableEq

/-- Loop `for (let i = 0; i < secretArr.length; i++) if (secretArr[i] === guessArr[i]) order++`.
Out-of-range access `guessArr[i]` yields `undefined` in JS, never equal to a
character; `List.get?` mirrors this with `none`. -/
def computeOrder (secret guess : List Char) : Nat :=
  (List.range secret.length).foldl
    (fun acc i => if secret.get? i = guess.get? i then acc + 1 else acc) 0

/-- Loop `guessSet.forEach(d => { if (secretSet.has(d)) on++ })`: counts the
distinct characters of `guess` (the JS `Set`) that occur in `secret`. -/
def computeOn (secret guess : List Char) : Nat :=
  guess.dedup.foldl (fun acc d => if d ∈ secret then acc + 1 else acc) 0

/-- Scorer `computeOnAndOrder` from `utils/gameLogic.ts`. -/
def computeOnAndOrder (secret guess : List Char) : Feedback :=
  { «on» := computeOn secret guess, order := computeOrder secret guess }

def lengthErrorMsg (n : Nat) : String := "Length must be " ++ toString n

def nonDigitErrorMsg : String := "Only digits 0-9 allowed"

def duplicateErrorMsg : String := "No repeated digits allowed"

/-- Validator `validateSequence` from `utils/gameLogic.ts`, returning the
`{ valid, error? }` record as a pair.  The regex test `/^\d+$/` holds iff the
string is non-empty and every character is an ASCII digit; `new Set(chars).size`
is `dedup.length`. -/
def validateSequence (sequence : List Char) (n : Nat) : Bool × Option String :=
  if sequence.length ≠ n then (false, some (lengthErrorMsg n))
  else if ¬ (sequence ≠ [] ∧ sequence.all Char.isDigit = true) then
    (false, some nonDigitErrorMsg)
  else if sequence.dedup.length ≠ sequence.length then
    (false, some duplicateErrorMsg)
  else (true, none)

/-- The spec's notion of a valid sequence: length `n`, ASCII digits only,
no repeated digit. -/
def ValidSeq (s : List Char) (n : Nat) : Prop :=
  s.length = n ∧ (∀ c ∈ s, c.isDigit = true) ∧ s.Nodup

instance (s : List Char) (n : Nat) : Decidable (ValidSeq s n) := by
  unfold ValidSeq
  infer_instance

theorem foldl_ite_count {α : Type} (p : α → Prop) [DecidablePred p]
    (l : List α) : ∀ k : Nat,
    l.foldl (fun acc a => if p a then acc + 1 else acc) k
      = k + l.countP (fun a => decide (p a)) := by
  induction l with
  | nil => intro k; simp
  | cons a t ih =>
    intro k
    simp only [List.foldl_cons, List.countP_cons, ih]
    by_cases h : p a
    · simp [h]
      omega
    · simp [h]

theorem computeOrder_eq_countP (secret guess : List Char) :
    computeOrder secret guess
      = (List.range secret.length).countP
          (fun i => decide (secret.get? i = guess.get? i)) := by
  unfold computeOrder
  simpa using
    foldl_ite_count (fun i => secret.get? i = guess.get? i) (List.range secret.length) 0

theorem computeOn_eq_countP (secret guess : List Char) :
    computeOn secret guess = guess.dedup.countP (fun d => decide (d ∈ secret)) := by
  unfold computeOn
  simpa using foldl_ite_count (fun d => d ∈ secret) guess.dedup 0

theorem countP_range_eq_zip (secret : List Char) : ∀ guess : List Char,
    (List.range secret.length).countP (fun i => decide (secret.get? i = guess.get? i))
      = (secret.zip guess).countP (fun p => decide (p.1 = p.2)) := by
  induction secret with
  | nil => intro guess; simp
  | cons a s ih =>
    intro guess
    cases guess with
    | nil =>
      simp only [List.zip_nil_right, List.countP_nil]
      rw [List.countP_eq_zero]
      intro i hi
      simp only [List.mem_range, List.length_cons] at hi
      simp only [decide_eq_true_eq]
      intro h
      have hnone : (a :: s).get? i = none := by rw [h]; rfl
      rw [List.get?_eq_none] at hnone
      simp only [List.length_cons] at hnone
      omega
    | cons b g =>
      rw [List.length_cons, List.range_succ_eq_map, List.countP_cons, List.countP_map]
      simp only [List.zip_cons_cons, List.countP_cons]
      have h2 : ((fun i => decide ((a :: s).get? i = (b :: g).get? i)) ∘ Nat.succ)
          = fun i => decide (s.get? i = g.get? i) := rfl
      rw [h2, ih g]
      by_cases hab : a = b <;> simp [hab]

theorem countP_zip_le_mem (secret : List Char) : ∀ guess : List Char,
    (secret.zip guess).countP (fun p => decide (p.1 = p.2))
      ≤ guess.countP (fun c => decide (c ∈ secret)) := by
  induction secret with
  | nil => intro g; simp
  | cons a s ih =>
    intro g
    cases g with
    | nil => simp
    | cons b g' =>
      simp only [List.zip_cons_cons, List.countP_cons]
      have h1 := ih g'
      have hmono : g'.countP (fun c => decide (c ∈ s))
          ≤ g'.countP (fun c => decide (c ∈ a :: s)) := by
        apply List.countP_mono_left
        intro x _
        simp only [decide_eq_true_eq, List.mem_cons]
        exact fun h => Or.inr h
      by_cases hab : a = b
      · rw [if_pos (by simpa using hab), if_pos (by simp [hab.symm])]
        omega
      · rw [if_neg (by simpa using hab)]
        have hub : (0:Nat) ≤ if decide (b ∈ a :: s) = true then 1 else 0 := Nat.zero_le _
        omega

theorem countP_zip_self (s : List Char) :
    (s.zip s).countP (fun p => decide (p.1 = p.2)) = s.length := by
  induction s with
  | nil => rfl
  | cons a t ih => simp [List.zip_cons_cons, List.countP_cons, ih]

theorem zip_countP_eq_length_iff (s : List Char) : ∀ g : List Char, s.length = g.length →
    ((s.zip g).countP (fun p => decide (p.1 = p.2)) = s.length ↔ g = s) := by
  induction s with
  | nil =>
    intro g hg
    cases g with
    | nil => simp
    | cons b g' => simp at hg
  | cons a t ih =>
    intro g hlen
    cases g with
    | nil => simp at hlen
    | cons b g' =>
      simp only [List.length_cons] at hlen
      have hlen' : t.length = g'.length := by omega
      have hle : (t.zip g').countP (fun p => decide (p.1 = p.2)) ≤ t.length := by
        calc (t.zip g').countP (fun p => decide (p.1 = p.2)) ≤ (t.zip g').length :=
              List.countP_le_length _
        _ ≤ t.length := by rw [List.length_zip]; omega
      simp only [List.zip_cons_cons, List.countP_cons, List.length_cons]
      constructor
      · intro h
        by_cases hab : a = b
        · rw [if_pos (by simpa using hab)] at h
          have hfull : (t.zip g').countP (fun p => decide (p.1 = p.2)) = t.length := by omega
          have := (ih g' hlen').mp hfull
          simp [hab, this]
        · rw [if_neg (by simpa using hab)] at h
          omega
      · intro h
        cases h
        simp [countP_zip_self]

/-- C1: the scorer reproduces the five concrete test vectors of the spec and of
`constants.ts` exactly: (4725, 2475) ↦ (4,1); (1234, 4321) ↦ (4,0);
(9876, 9876) ↦ (4,4); (582, 528) ↦ (3,1); (45, 54) ↦ (2,0). -/
theorem C1_test_vectors :
    computeOnAndOrder "4725".toList "2475".toList = ⟨4, 1⟩ ∧
    computeOnAndOrder "1234".toList "4321".toList = ⟨4, 0⟩ ∧
    computeOnAndOrder "9876".toList "9876".toList = ⟨4, 4⟩ ∧
    computeOnAndOrder "582".toList "528".toList = ⟨3, 1⟩ ∧
    computeOnAndOrder "45".toList "54".toList = ⟨2, 0⟩ := by
  decide

/-- C2: for every pair of valid sequences of equal length `n` the feedback
satisfies `0 ≤ order ≤ on ≤ n`. -/
theorem C2_feedback_bounds (n : Nat) (secret guess : List Char)
    (_hs : ValidSeq secret n) (hg : ValidSeq guess n) :
    0 ≤ (computeOnAndOrder secret guess).order ∧
    (computeOnAndOrder secret guess).order ≤ (computeOnAndOrder secret guess).«on» ∧
    (computeOnAndOrder secret guess).«on» ≤ n := by
  obtain ⟨hgl, hgd, hgn⟩ := hg
  have hded : guess.dedup = guess := List.dedup_eq_self.mpr hgn
  refine ⟨Nat.zero_le _, ?_, ?_⟩
  · show computeOrder secret guess ≤ computeOn secret guess
    rw [computeOrder_eq_countP, computeOn_eq_countP, hded, countP_range_eq_zip]
    exact countP_zip_le_mem secret guess
  · show computeOn secret guess ≤ n
    rw [computeOn_eq_countP, hded]
    calc guess.countP (fun d => decide (d ∈ secret)) ≤ guess.length :=
          List.countP_le_length _
    _ = n := hgl

theorem C2_feedback_bounds_witness :
    ValidSeq "582".toList 3 ∧ ValidSeq "528".toList 3 ∧
    (0 ≤ (computeOnAndOrder "582".toList "528".toList).order ∧
     (computeOnAndOrder "582".toList "528".toList).order
       ≤ (computeOnAndOrder "582".toList "528".toList).«on» ∧
     (computeOnAndOrder "582".toList "528".toList).«on» ≤ 3) :=
  ⟨by decide, by decide,
   C2_feedback_bounds 3 "582".toList "528".toList (by decide) (by decide)⟩

/-- C3: for valid equal-length sequences, `order = n` iff the guess equals the
secret, `order = n` implies `on = n`, and scoring a sequence against itself
yields `(n, n)`. -/
theorem C3_win_condition (n : Nat) (secret guess : List Char)
    (hs : ValidSeq secret n) (hg : ValidSeq guess n) :
    ((computeOnAndOrder secret guess).order = n ↔ guess = secret) ∧
    ((computeOnAndOrder secret guess).order = n →
      (computeOnAndOrder secret guess).«on» = n) ∧
    computeOnAndOrder secret secret = ⟨n, n⟩ := by
  obtain ⟨hsl, hsd, hsn⟩ := hs
  obtain ⟨hgl, hgd, hgn⟩ := hg
  have horder : (computeOnAndOrder secret guess).order
      = (secret.zip guess).countP (fun p => decide (p.1 = p.2)) := by
    show computeOrder secret guess = _
    rw [computeOrder_eq_countP, countP_range_eq_zip]
  have hiff := zip_countP_eq_length_iff secret guess (by rw [hsl, hgl])
  rw [hsl] at hiff
  have hmain : (computeOnAndOrder secret guess).order = n ↔ guess = secret := by
    rw [horder]; exact hiff
  have hdiag_on : computeOn secret secret = n := by
    rw [computeOn_eq_countP, List.dedup_eq_self.mpr hsn]
    have : secret.countP (fun d => decide (d ∈ secret)) = secret.length :=
      List.countP_eq_length.mpr (by intro a ha; simpa using ha)
    rw [this, hsl]
  have hdiag_order : computeOrder secret secret = n := by
    rw [computeOrder_eq_countP, countP_range_eq_zip, countP_zip_self, hsl]
  refine ⟨hmain, ?_, ?_⟩
  · intro h
    have hge : guess = secret := hmain.mp h
    subst hge
    show computeOn guess guess = n
    exact hdiag_on
  · show Feedback.mk (computeOn secret secret) (computeOrder secret secret) = ⟨n, n⟩
    rw [hdiag_on, hdiag_order]

theorem C3_win_condition_witness :
    ValidSeq "123".toList 3 ∧ ValidSeq "312".toList 3 ∧
    (((computeOnAndOrder "123".toList "312".toList).order = 3 ↔
        "312".toList = "123".toList) ∧
     ((computeOnAndOrder "123".toList "312".toList).order = 3 →
        (computeOnAndOrder "123".toList "312".toList).«on» = 3) ∧
     computeOnAndOrder "123".toList "123".toList = ⟨3, 3⟩) :=
  ⟨by decide, by decide,
   C3_win_condition 3 "123".toList "312".toList (by decide) (by decide)⟩

/-- C10: the scorer is a total function on arbitrary character-string pairs
(no precondition check, no failure path): `order` is the number of positions
`i < secret.length` whose characters agree, and `on` is the number of distinct
characters common to both strings. -/
theorem C10_scorer_total (secret guess : List Char) :
    (computeOnAndOrder secret guess).order
        = ((List.range secret.length).filter
            (fun i => decide (secret.get? i = guess.get? i))).length ∧
    (computeOnAndOrder secret guess).«on» = (secret.toFinset ∩ guess.toFinset).card := by
  constructor
  · show computeOrder secret guess = _
    rw [computeOrder_eq_countP, List.countP_eq_length_filter]
  · show computeOn secret guess = _
    rw [computeOn_eq_countP, List.countP_eq_length_filter]
    have hnd : (guess.dedup.filter (fun d => decide (d ∈ secret))).Nodup :=
      List.Nodup.filter _ (List.nodup_dedup guess)
    rw [← List.toFinset_card_of_nodup hnd, List.toFinset_filter]
    have hded : guess.dedup.toFinset = guess.toFinset := by
      ext c; simp [List.mem_dedup]
    rw [hded]
    have hfil : guess.toFinset.filter (fun d => decide (d ∈ secret) = true)
        = guess.toFinset ∩ secret.toFinset := by
      ext c
      simp [Finset.mem_filter, Finset.mem_inter, List.mem_toFinset]
    rw [hfil, Finset.inter_comm]

theorem dedup_length_eq_iff (x : List Char) : x.dedup.length = x.length ↔ x.Nodup := by
  constructor
  · intro h
    have hx : x.dedup = x := (List.dedup_sublist x).eq_of_length h
    rw [← hx]
    exact List.nodup_dedup x
  · intro h
    rw [List.dedup_eq_self.mpr h]

/-- C4 counterexample: on the empty string with `n = 0` every rule of the claim
holds (length is 0, all characters are digits vacuously, no digit repeats), yet
`validateSequence` rejects with the non-digit error, because the regex
`/^\d+$/` requires at least one digit. -/
theorem C4_validator_counterexample :
    (validateSequence [] 0).1 = false ∧
    (validateSequence [] 0).2 = some nonDigitErrorMsg ∧
    ([] : List Char).length = 0 ∧
    (∀ c ∈ ([] : List Char), c.isDigit = true) ∧
    ([] : List Char).Nodup := by
  decide

/-- C4 (amended): for every `n ≥ 1`, `validateSequence x n` succeeds iff `x`
has length `n`, consists of ASCII digits only and has no repeated digit; on
failure it reports the first violated rule in the fixed order: wrong length,
then non-digit, then duplicate digit.  (Only the vacuous case `x = ""`, `n = 0`
is excluded: there the regex `/^\d+$/` rejects although all three rules hold.) -/
theorem C4_validator_amended (x : List Char) (n : Nat) (hn : 1 ≤ n) :
    ((validateSequence x n).1 = true ↔ ValidSeq x n) ∧
    (x.length ≠ n → validateSequence x n = (false, some (lengthErrorMsg n))) ∧
    (x.length = n → (∃ c ∈ x, ¬ c.isDigit = true) →
      validateSequence x n = (false, some nonDigitErrorMsg)) ∧
    (x.length = n → (∀ c ∈ x, c.isDigit = true) → ¬ x.Nodup →
      validateSequence x n = (false, some duplicateErrorMsg)) := by
  by_cases h1 : x.length = n
  · by_cases h2 : (x ≠ [] ∧ x.all Char.isDigit = true)
    · by_cases h3 : x.dedup.length = x.length
      · -- all three rules pass
        have e : validateSequence x n = (true, none) := by
          unfold validateSequence
          rw [if_neg (by omega), if_neg (not_not_intro h2), if_neg (by omega)]
        have hnodup := (dedup_length_eq_iff x).mp h3
        rw [e]
        refine ⟨⟨fun _ => ⟨h1, List.all_eq_true.mp h2.2, hnodup⟩, fun _ => rfl⟩,
          fun hl => absurd h1 hl, ?_, fun _ _ hnd => absurd hnodup hnd⟩
        rintro _ ⟨c, hc, hcd⟩
        exact absurd (List.all_eq_true.mp h2.2 c hc) hcd
      · -- duplicate digit
        have e : validateSequence x n = (false, some duplicateErrorMsg) := by
          unfold validateSequence
          rw [if_neg (by omega), if_neg (not_not_intro h2), if_pos h3]
        have hnodup : ¬ x.Nodup := fun hnd => h3 ((dedup_length_eq_iff x).mpr hnd)
        rw [e]
        refine ⟨⟨fun h => by simp at h, fun hv => absurd hv.2.2 hnodup⟩,
          fun hl => absurd h1 hl, ?_, fun _ _ _ => rfl⟩
        rintro _ ⟨c, hc, hcd⟩
        exact absurd (List.all_eq_true.mp h2.2 c hc) hcd
    · -- a non-digit (or, for n = 0 only, emptiness)
      have e : validateSequence x n = (false, some nonDigitErrorMsg) := by
        unfold validateSequence
        rw [if_neg (by omega), if_pos h2]
      have hne : x ≠ [] := by
        intro hx
        rw [hx] at h1
        simp at h1
        omega
      have hnotall : ¬ x.all Char.isDigit = true := fun hall => h2 ⟨hne, hall⟩
      rw [e]
      exact ⟨⟨fun h => by simp at h,
          fun hv => absurd (List.all_eq_true.mpr hv.2.1) hnotall⟩,
        fun hl => absurd h1 hl, fun _ _ => rfl,
        fun _ hall _ => absurd (List.all_eq_true.mpr hall) hnotall⟩
  · -- wrong length
    have e : validateSequence x n = (false, some (lengthErrorMsg n)) := by
      unfold validateSequence
      rw [if_pos h1]
    rw [e]
    exact ⟨⟨fun h => by simp at h, fun hv => absurd hv.1 h1⟩, fun _ => rfl,
      fun hl _ => absurd hl h1, fun hl _ _ => absurd hl h1⟩

theorem C4_validator_amended_witness :
    1 ≤ 4 ∧
    ((((validateSequence "1123".toList 4).1 = true) ↔ ValidSeq "1123".toList 4) ∧
     ("1123".toList.length ≠ 4 →
        validateSequence "1123".toList 4 = (false, some (lengthErrorMsg 4))) ∧
     ("1123".toList.length = 4 → (∃ c ∈ "1123".toList, ¬ c.isDigit = true) →
        validateSequence "1123".toList 4 = (false, some nonDigitErrorMsg)) ∧
     ("1123".toList.length = 4 → (∀ c ∈ "1123".toList, c.isDigit = true) →
        ¬ "1123".toList.Nodup →
        validateSequence "1123".toList 4 = (false, some duplicateErrorMsg))) :=
  ⟨by decide, C4_validator_amended "1123".toList 4 (by decide)⟩

theorem cons_get_eraseIdx_perm (l : List Char) : ∀ (i : Nat) (h : i < l.length),
    l.Perm (l.get ⟨i, h⟩ :: l.eraseIdx i) := by
  induction l with
  | nil => intro i h; simp at h
  | cons a t ih =>
    intro i h
    cases i with
    | zero => exact List.Perm.refl _
    | succ j =>
      have hj : j < t.length := by simpa using h
      exact ((ih j hj).cons a).trans (List.Perm.swap (t.get ⟨j, hj⟩) a (t.eraseIdx j))

/-- Drawing loop of `generateRandomSecret`: at step `i` it picks
`available[rand[i] % available.length]` and splices that digit out.  The JS
`Uint32Array` is modelled by the oracle `rand`; the `getD`-default is never
used for `n ≤ 10` (the only arities the game configures). -/
def drawDigits : Nat → List Char → List Nat → List Char
  | 0, _, _ => []
  | k + 1, available, rand =>
    let idx := rand.headD 0 % available.length
    available.getD idx ' ' :: drawDigits k (available.eraseIdx idx) rand.tail

/-- Digit pool `['0', ..., '9']` of `generateRandomSecret` (and of the solver's
`backtrack`). -/
def digitChars : List Char := ['0', '1', '2', '3', '4', '5', '6', '7', '8', '9']

/-- Secret generator `generateRandomSecret` from `utils/gameLogic.ts` (the
optional second JS argument is ignored by the implementation, so it is not
modelled). -/
def generateRandomSecret (n : Nat) (rand : List Nat) : List Char :=
  drawDigits n digitChars rand

theorem drawDigits_valid : ∀ (k : Nat) (avail : List Char) (rand : List Nat),
    k ≤ avail.length → avail.Nodup →
    (drawDigits k avail rand).length = k ∧
    (drawDigits k avail rand).Nodup ∧
    (∀ c ∈ drawDigits k avail rand, c ∈ avail) := by
  intro k
  induction k with
  | zero =>
    intro avail rand _ _
    exact ⟨rfl, List.nodup_nil, by intro c hc; simp [drawDigits] at hc⟩
  | succ m ih =>
    intro avail rand hk hnd
    have hpos : 0 < avail.length := by omega
    have hlt : rand.headD 0 % avail.length < avail.length := Nat.mod_lt _ hpos
    have hget : avail.getD (rand.headD 0 % avail.length) ' '
        = avail.get ⟨rand.headD 0 % avail.length, hlt⟩ := by
      rw [List.getD, List.get?_eq_get hlt]
      rfl
    have hperm := cons_get_eraseIdx_perm avail (rand.headD 0 % avail.length) hlt
    have hcons_nd := (hperm.nodup_iff).mp hnd
    have hlen_e : (avail.eraseIdx (rand.headD 0 % avail.length)).length
        = avail.length - 1 := by
      have := List.length_eraseIdx_add_one hlt
      omega
    obtain ⟨ihlen, ihnd, ihmem⟩ :=
      ih (avail.eraseIdx (rand.headD 0 % avail.length)) rand.tail (by omega)
        (List.Nodup.of_cons hcons_nd)
    have hunfold : drawDigits (m + 1) avail rand
        = avail.getD (rand.headD 0 % avail.length) ' '
            :: drawDigits m (avail.eraseIdx (rand.headD 0 % avail.length)) rand.tail := rfl
    refine ⟨?_, ?_, ?_⟩
    · rw [hunfold, List.length_cons, ihlen]
    · rw [hunfold, hget]
      apply List.nodup_cons.mpr
      exact ⟨fun hmem => (List.nodup_cons.mp hcons_nd).1 (ihmem _ hmem), ihnd⟩
    · intro c hc
      rw [hunfold] at hc
      rcases List.mem_cons.mp hc with h | h
      · rw [h, hget]
        exact avail.get_mem _ _
      · exact hperm.mem_iff.mpr (List.mem_cons_of_mem _ (ihmem c h))

theorem generateRandomSecret_valid (n : Nat) (rand : List Nat) (hn : n ≤ 10) :
    ValidSeq (generateRandomSecret n rand) n := by
  obtain ⟨hlen, hnd, hmem⟩ :=
    drawDigits_valid n digitChars rand
      (le_trans hn (by decide : (10:Nat) ≤ digitChars.length)) (by decide)
  exact ⟨hlen,
    fun c hc => (by decide : ∀ c ∈ digitChars, c.isDigit = true) c (hmem c hc), hnd⟩

/-- Guess record `GuessResult` from `types.ts`; the `timestamp` field (wall
clock) is omitted: no game logic reads it. -/
structure GuessResult where
  guess : List Char
  «on» : Nat
  order : Nat
deriving Repr, DecidableEq

/-- Consistency check inside `getCpuPerfectGuess`:
`history.every(move => check.on === move.on && check.order === move.order)`. -/
def isConsistent (history : List GuessResult) (current : List Char) : Bool :=
  history.all fun mv =>
    ((computeOnAndOrder current mv.guess).«on» == mv.«on») &&
    ((computeOnAndOrder current mv.guess).order == mv.order)

/-- The `backtrack` recursion of `getCpuPerfectGuess`: enumerate, in increasing
digit order, every repeat-free extension of `current` to length `n` and keep
those consistent with the whole history.  The JS recursion descends once per
appended digit; the explicit `fuel` argument (`n` at the root call) bounds that
descent for the termination checker and is not exhausted on reachable paths. -/
def backtrack (n : Nat) (history : List GuessResult) : Nat → List Char → List (List Char)
  | fuel, current =>
    if current.length = n then
      if isConsistent history current then [current] else []
    else
      match fuel with
      | 0 => []
      | f + 1 =>
        (digitChars.filter fun d => !(current.contains d)).flatMap
          (fun d => backtrack n history f (current ++ [d]))

/-- CPU solver `getCpuPerfectGuess` from `utils/gameLogic.ts`.  `rand` models
the crypto values consumed by `generateRandomSecret`; `pick` models the draw
`Math.floor(Math.random() * candidates.length)` (every actual draw equals
`pick % candidates.length` for some `pick`, and conversely). -/
def getCpuPerfectGuess (n : Nat) (history : List GuessResult) (rand : List Nat)
    (pick : Nat) : List Char :=
  if history.length = 0 then generateRandomSecret n rand
  else
    let candidates := backtrack n history n []
    if candidates.length = 0 then generateRandomSecret n rand
    else candidates.getD (pick % candidates.length) []

/-- C6 counterexample: with empty history the CPU's next guess is
`generateRandomSecret`, so it depends on the random draw — the draws
`[0,0,0]` and `[9,0,0]` give different opening guesses (`012` and `901`),
refuting a fixed deterministic opening. -/
theorem C6_opening_guess_counterexample :
    getCpuPerfectGuess 3 [] [0, 0, 0] 0 = "012".toList ∧
    getCpuPerfectGuess 3 [] [9, 0, 0] 0 = "901".toList ∧
    getCpuPerfectGuess 3 [] [9, 0, 0] 0 ≠ getCpuPerfectGuess 3 [] [0, 0, 0] 0 := by
  decide

/-- C6 (amended): when the CPU's own guess history is empty, its next guess is
`generateRandomSecret n rand` — a valid repeat-free random sequence for the
configured arity (any `n ≤ 10`) that depends on the random draw, not a fixed
deterministic opening such as `012`. -/
theorem C6_opening_guess_amended (n : Nat) (rand : List Nat) (pick : Nat)
    (hn : n ≤ 10) :
    getCpuPerfectGuess n [] rand pick = generateRandomSecret n rand ∧
    ValidSeq (getCpuPerfectGuess n [] rand pick) n := by
  have he : getCpuPerfectGuess n [] rand pick = generateRandomSecret n rand := rfl
  exact ⟨he, he ▸ generateRandomSecret_valid n rand hn⟩

theorem C6_opening_guess_amended_witness :
    3 ≤ 10 ∧
    (getCpuPerfectGuess 3 [] [0, 0, 0] 0 = generateRandomSecret 3 [0, 0, 0] ∧
     ValidSeq (getCpuPerfectGuess 3 [] [0, 0, 0] 0) 3) :=
  ⟨by decide, C6_opening_guess_amended 3 [0, 0, 0] 0 (by decide)⟩

/-- Match phase enumeration `GamePhase` from `types.ts`. -/
inductive GamePhase where
  | SETUP_P1
  | SETUP_P2
  | TRANSITION
  | WAITING_FOR_OPPONENT
  | TURN_P1
  | TURN_P2
  | GAME_OVER
deriving Repr, DecidableEq

/-- The match-relevant fields of `GameState` from `types.ts` (UI-only fields
`matchId`, `message`, `opponentName`, `timeLeft` and the fixed `config` are
omitted; the arity `n` is passed to each operation, as `GameScreen` does with
`gameState.config.n`). -/
structure GameState where
  phase : GamePhase
  player1Secret : List Char
  player2Secret : List Char
  player1History : List GuessResult
  player2History : List GuessResult
  winner : Option String
deriving Repr, DecidableEq

/-- Handler `submitSecret` from `GameScreen.tsx`.  The returned `Option String`
is the validation error surfaced to the user (`alert(valid.error)`); on invalid
input the state is returned untouched.  `isOnline`/`isPlayer1`/`sp` mirror the
`isOnline`, `isPlayer1` and `isSinglePlayer` flags; `rand` feeds the
auto-generated CPU secret of single-player setup (the source passes the extra
argument `secret` to `generateRandomSecret`, which ignores it). -/
def submitSecret (n : Nat) (isOnline isPlayer1 sp : Bool) (st : GameState)
    (secret : List Char) (rand : List Nat) : GameState × Option String :=
  let v := validateSequence secret n
  if v.1 = false then (st, v.2)
  else if isOnline then
    ({ st with
        player1Secret := if isPlayer1 then secret else st.player1Secret,
        player2Secret := if !isPlayer1 then secret else st.player2Secret }, none)
  else if st.phase = GamePhase.SETUP_P1 then
    if sp then
      ({ st with
          player1Secret := secret,
          player2Secret := generateRandomSecret n rand,
          phase := GamePhase.TURN_P1 }, none)
    else
      ({ st with player1Secret := secret, phase := GamePhase.TRANSITION }, none)
  else if st.phase = GamePhase.SETUP_P2 then
    ({ st with player2Secret := secret, phase := GamePhase.TRANSITION }, none)
  else (st, none)

/-- Handler `submitGuess` from `GameScreen.tsx`.  On invalid input it returns
the state untouched together with the validation error; otherwise it scores the
guess against the defender's secret, appends the record to the mover's history
and advances the phase, declaring a winner on `on = n ∧ order = n`. -/
def submitGuess (n : Nat) (isOnline isPlayer1 sp : Bool) (st : GameState)
    (guessToSubmit : List Char) : GameState × Option String :=
  let v := validateSequence guessToSubmit n
  if v.1 = false then (st, v.2)
  else if isOnline then
    let targetSecret := if isPlayer1 then st.player2Secret else st.player1Secret
    let result := computeOnAndOrder targetSecret guessToSubmit
    let gr : GuessResult := ⟨guessToSubmit, result.«on», result.order⟩
    let newHistory := if isPlayer1 then st.player1History ++ [gr]
      else st.player2History ++ [gr]
    if result.«on» = n ∧ result.order = n then
      ({ st with
          player1History := if isPlayer1 then newHistory else st.player1History,
          player2History := if !isPlayer1 then newHistory else st.player2History,
          phase := GamePhase.GAME_OVER,
          winner := some (if isPlayer1 then "player1" else "player2") }, none)
    else
      ({ st with
          player1History := if isPlayer1 then newHistory else st.player1History,
          player2History := if !isPlayer1 then newHistory else st.player2History,
          phase := if isPlayer1 then GamePhase.TURN_P2 else GamePhase.TURN_P1 }, none)
  else
    let isP1 := st.phase == GamePhase.TURN_P1
    let targetSecret := if isP1 then st.player2Secret else st.player1Secret
    let result := computeOnAndOrder targetSecret guessToSubmit
    let gr : GuessResult := ⟨guessToSubmit, result.«on», result.order⟩
    let newHistory := if isP1 then st.player1History ++ [gr]
      else st.player2History ++ [gr]
    if result.«on» = n ∧ result.order = n then
      ({ st with
          player1History := if isP1 then newHistory else st.player1History,
          player2History := if !isP1 then newHistory else st.player2History,
          phase := GamePhase.GAME_OVER,
          winner := some (if isP1 then "player1" else "player2") }, none)
    else if sp then
      ({ st with player1History := newHistory }, none)
    else
      ({ st with
          player1History := if isP1 then newHistory else st.player1History,
          player2History := if !isP1 then newHistory else st.player2History,
          phase := GamePhase.TRANSITION }, none)

/-- The state update of `triggerAiTurn` from `GameScreen.tsx` (the cosmetic
`setTimeout` thinking delay and the `isAiThinking` flag are UI concerns): the
CPU guess is `generateRandomSecret(n)`, scored against player 1's secret and
appended to player 2's history; the phase is left unchanged unless the CPU
wins. -/
def triggerAiTurn (n : Nat) (st : GameState) (rand : List Nat) : GameState :=
  if st.phase = GamePhase.GAME_OVER then st
  else
    let aiGuess := generateRandomSecret n rand
    let result := computeOnAndOrder st.player1Secret aiGuess
    let gr : GuessResult := ⟨aiGuess, result.«on», result.order⟩
    let newP2 := st.player2History ++ [gr]
    if result.«on» = n ∧ result.order = n then
      { st with
          player2History := newP2,
          phase := GamePhase.GAME_OVER,
          winner := some "player2" }
    else { st with player2History := newP2 }

/-- Fallback guess chosen by `handleTimeout` in `GameScreen.tsx`: the player's
last recorded guess when the history is non-empty, else a fresh random
sequence. -/
def timeoutFallbackGuess (n : Nat) (st : GameState) (isPlayer1 : Bool)
    (rand : List Nat) : List Char :=
  let myHistory := if isPlayer1 then st.player1History else st.player2History
  if 0 < myHistory.length then (myHistory.getLast?.map GuessResult.guess).getD []
  else generateRandomSecret n rand

/-- Handler `handleTimeout` from `GameScreen.tsx`: submits the fallback guess
through `submitGuess`. -/
def handleTimeout (n : Nat) (isOnline isPlayer1 sp : Bool) (st : GameState)
    (rand : List Nat) : GameState × Option String :=
  submitGuess n isOnline isPlayer1 sp st (timeoutFallbackGuess n st isPlayer1 rand)

/-- Single-player state reachable after the human set secret `345`, the CPU was
assigned secret `678`, and the CPU already guessed `012` receiving feedback
`(0, 0)`. -/
def cpuBugState : GameState :=
  { phase := GamePhase.TURN_P1,
    player1Secret := "345".toList,
    player2Secret := "678".toList,
    player1History := [],
    player2History := [⟨"012".toList, 0, 0⟩],
    winner := none }

/-- C5: the in-game CPU turn ignores its feedback history.  From a reachable
single-player state in which the CPU was told that `012` scores `(0, 0)`
against the human's secret `345`, the random draw `[0,0,0]` makes
`triggerAiTurn` submit `012` again; re-scoring that prior guess against the new
proposal yields `(3, 3) ≠ (0, 0)`, violating the claimed consistency (which the
never-called solver `getCpuPerfectGuess` was written to provide). -/
theorem C5_ai_turn_inconsistent :
    (triggerAiTurn 3 cpuBugState [0, 0, 0]).player2History
      = cpuBugState.player2History ++ [⟨"012".toList, 0, 0⟩] ∧
    ¬ computeOnAndOrder "012".toList "012".toList = ⟨0, 0⟩ := by
  decide

/-- C7 counterexample: in single-player mode the phase stays `TURN_P1` while
the CPU replies, so the CPU's (player 2's) history grows while the phase is
`Turn(P1)` — before and after the append the match is in player 1's turn. -/
theorem C7_turn_append_counterexample :
    cpuBugState.phase = GamePhase.TURN_P1 ∧
    (triggerAiTurn 3 cpuBugState [0, 0, 0]).phase = GamePhase.TURN_P1 ∧
    (triggerAiTurn 3 cpuBugState [0, 0, 0]).player2History.length
      = cpuBugState.player2History.length + 1 := by
  decide

/-- Single-player state reachable after the human (secret-holder `456`) has
guessed once. -/
def sampleState : GameState :=
  { phase := GamePhase.TURN_P1,
    player1Secret := "123".toList,
    player2Secret := "456".toList,
    player1History := [⟨"450".toList, 2, 2⟩],
    player2History := [],
    winner := none }

/-- C7 (amended): the human submission operation in the offline modes appends
only to the phase-mover's history — player 2's history is preserved while the
phase is `TURN_P1`, and player 1's history is preserved while the phase is
`TURN_P2` in local two-player mode — and the CPU reply `triggerAiTurn` never
touches player 1's history.  However, in single-player mode the phase remains
`TURN_P1` during the CPU's scripted reply, so the CPU's (player 2's) history
does grow while the phase is `Turn(P1)`, refuting the claim's particular
case. -/
theorem C7_turn_append_amended (n : Nat) (sp : Bool) (st : GameState)
    (g : List Char) (rand : List Nat) :
    (st.phase = GamePhase.TURN_P1 →
      ((submitGuess n false false sp st g).1).player2History = st.player2History) ∧
    (st.phase = GamePhase.TURN_P2 → sp = false →
      ((submitGuess n false false sp st g).1).player1History = st.player1History) ∧
    (triggerAiTurn n st rand).player1History = st.player1History := by
  refine ⟨?_, ?_, ?_⟩
  · intro hp
    by_cases hv : (validateSequence g n).1 = false
    · simp [submitGuess, hv]
    · simp only [submitGuess, hv]
      simp [hp]
      split
      · rfl
      · split <;> rfl
  · intro hp hsp
    by_cases hv : (validateSequence g n).1 = false
    · simp [submitGuess, hv]
    · simp only [submitGuess, hv]
      have hne : (st.phase == GamePhase.TURN_P1) = false := by
        rw [hp]
        rfl
      simp [hne, hsp]
      split <;> rfl
  · simp only [triggerAiTurn]
    split
    · rfl
    · split <;> rfl

theorem C7_turn_append_amended_witness :
    sampleState.phase = GamePhase.TURN_P1 ∧
    ((sampleState.phase = GamePhase.TURN_P1 →
        ((submitGuess 3 false false true sampleState "789".toList).1).player2History
          = sampleState.player2History) ∧
     (sampleState.phase = GamePhase.TURN_P2 → true = false →
        ((submitGuess 3 false false true sampleState "789".toList).1).player1History
          = sampleState.player1History) ∧
     (triggerAiTurn 3 sampleState [0, 0, 0]).player1History
        = sampleState.player1History) :=
  ⟨by decide, C7_turn_append_amended 3 true sampleState "789".toList [0, 0, 0]⟩

theorem validateSequence_invalid_has_error (x : List Char) (n : Nat)
    (hv : (validateSequence x n).1 = false) : (validateSequence x n).2 ≠ none := by
  unfold validateSequence at hv ⊢
  split_ifs at hv ⊢ <;> simp_all

/-- C8: rejected input is atomic — for every state and every input string that
fails validation for the configured `n`, `submitSecret` and `submitGuess`
return the match state completely unchanged (phase, both secrets, both
histories, winner) together with the validation error that is reported. -/
theorem C8_invalid_input_atomic (n : Nat) (isOnline isPlayer1 sp : Bool)
    (st : GameState) (input : List Char) (rand : List Nat)
    (hv : (validateSequence input n).1 = false) :
    submitSecret n isOnline isPlayer1 sp st input rand
      = (st, (validateSequence input n).2) ∧
    submitGuess n isOnline isPlayer1 sp st input
      = (st, (validateSequence input n).2) ∧
    (validateSequence input n).2 ≠ none := by
  refine ⟨?_, ?_, validateSequence_invalid_has_error input n hv⟩
  · simp [submitSecret, hv]
  · simp [submitGuess, hv]

theorem C8_invalid_input_atomic_witness :
    (validateSequence "12".toList 4).1 = false ∧
    (submitSecret 4 false false true sampleState "12".toList []
        = (sampleState, (validateSequence "12".toList 4).2) ∧
     submitGuess 4 false false true sampleState "12".toList
        = (sampleState, (validateSequence "12".toList 4).2) ∧
     (validateSequence "12".toList 4).2 ≠ none) :=
  ⟨by decide,
   C8_invalid_input_atomic 4 false false true sampleState "12".toList [] (by decide)⟩

/-- The component-level flag `const isPlayer1 = !isOnline || isHost` of
`GameScreen.tsx`, which `handleTimeout` uses to select the history the fallback
guess is taken from; it is constant `true` in both offline modes. -/
def isPlayer1Flag (isOnline isHost : Bool) : Bool := !isOnline || isHost

/-- Local two-player state reachable on player 2's second turn (secrets `123`
and `456`; player 1 has guessed `450` then `789` against `456`, player 2 has
guessed `345` against `123`; both histories non-empty, so the timer runs during
`TURN_P2`). -/
def timeoutBugState : GameState :=
  { phase := GamePhase.TURN_P2,
    player1Secret := "123".toList,
    player2Secret := "456".toList,
    player1History := [⟨"450".toList, 2, 2⟩, ⟨"789".toList, 0, 0⟩],
    player2History := [⟨"345".toList, 1, 0⟩],
    winner := none }

/-- C9 counterexample: on a player-2 timeout in local two-player mode
(`isOnline = false`, `isHost = false`, so the `isPlayer1` flag is `true`),
`handleTimeout` resubmits player **1**'s last recorded guess `789`, not the
timed-out player 2's last guess `345`: the record appended to player 2's
history carries guess `789`. -/
theorem C9_timeout_counterexample :
    timeoutBugState.phase = GamePhase.TURN_P2 ∧
    timeoutBugState.player2History.getLast? = some ⟨"345".toList, 1, 0⟩ ∧
    isPlayer1Flag false false = true ∧
    timeoutFallbackGuess 3 timeoutBugState (isPlayer1Flag false false) [0, 0, 0]
      = "789".toList ∧
    "789".toList ≠ "345".toList ∧
    ((handleTimeout 3 false (isPlayer1Flag false false) false timeoutBugState
        [0, 0, 0]).1).player2History
      = timeoutBugState.player2History ++ [⟨"789".toList, 0, 0⟩] := by
  decide

/-- C9 (amended): when the turn timer reaches zero, the fallback guess is drawn
from the history selected by the component's `isPlayer1` flag
(`!isOnline || isHost`, hence constant `true` in both offline modes): the last
guess of that history is resubmitted through `submitGuess` when it is
non-empty, and only when it is empty is a freshly generated random valid
sequence submitted instead.  In single-player and online play the selected
history is the timed-out player's own; in local two-player mode a player-2
timeout resubmits player 1's last recorded guess. -/
theorem C9_timeout_fallback_amended (n : Nat) (st : GameState)
    (isOnline isHost sp : Bool) (rand : List Nat) (hn : n ≤ 10) :
    (∀ gr : GuessResult,
       (if isPlayer1Flag isOnline isHost then st.player1History
        else st.player2History).getLast? = some gr →
       timeoutFallbackGuess n st (isPlayer1Flag isOnline isHost) rand = gr.guess) ∧
    ((if isPlayer1Flag isOnline isHost then st.player1History
      else st.player2History) = [] →
       timeoutFallbackGuess n st (isPlayer1Flag isOnline isHost) rand
         = generateRandomSecret n rand ∧
       ValidSeq (timeoutFallbackGuess n st (isPlayer1Flag isOnline isHost) rand) n) ∧
    (isOnline = false → isPlayer1Flag isOnline isHost = true) ∧
    handleTimeout n isOnline (isPlayer1Flag isOnline isHost) sp st rand
      = submitGuess n isOnline (isPlayer1Flag isOnline isHost) sp st
          (timeoutFallbackGuess n st (isPlayer1Flag isOnline isHost) rand) := by
  refine ⟨?_, ?_, ?_, rfl⟩
  · intro gr hgr
    have hne : (if isPlayer1Flag isOnline isHost then st.player1History
        else st.player2History) ≠ [] := by
      intro h
      rw [h] at hgr
      simp at hgr
    have hlen : 0 < (if isPlayer1Flag isOnline isHost then st.player1History
        else st.player2History).length := List.length_pos.mpr hne
    simp only [timeoutFallbackGuess]
    rw [if_pos hlen, hgr]
    rfl
  · intro h
    have he : timeoutFallbackGuess n st (isPlayer1Flag isOnline isHost) rand
        = generateRandomSecret n rand := by
      simp only [timeoutFallbackGuess]
      rw [h]
      rfl
    exact ⟨he, he ▸ generateRandomSecret_valid n rand hn⟩
  · intro h
    rw [h]
    rfl

theorem C9_timeout_fallback_amended_witness :
    3 ≤ 10 ∧
    ((∀ gr : GuessResult,
        (if isPlayer1Flag false false then timeoutBugState.player1History
         else timeoutBugState.player2History).getLast? = some gr →
        timeoutFallbackGuess 3 timeoutBugState (isPlayer1Flag false false) [0, 0, 0]
          = gr.guess) ∧
     ((if isPlayer1Flag false false then timeoutBugState.player1History
       else timeoutBugState.player2History) = [] →
        timeoutFallbackGuess 3 timeoutBugState (isPlayer1Flag false false) [0, 0, 0]
          = generateRandomSecret 3 [0, 0, 0] ∧
        ValidSeq (timeoutFallbackGuess 3 timeoutBugState (isPlayer1Flag false false)
          [0, 0, 0]) 3) ∧
     (false = false → isPlayer1Flag false false = true) ∧
     handleTimeout 3 false (isPlayer1Flag false false) false timeoutBugState [0, 0, 0]
       = submitGuess 3 false (isPlayer1Flag false false) false timeoutBugState
           (timeoutFallbackGuess 3 timeoutBugState (isPlayer1Flag false false)
             [0, 0, 0])) :=
  ⟨by decide,
   C9_timeout_fallback_amended 3 timeoutBugState false false false [0, 0, 0] (by decide)⟩

end OnOrder
